import Mathlib

/-!
Shallow embedding of `src/js/game.js` (repository `24PointGame`).

The source file contains two variants of the same script, differing only in
the asset base path (`assets/pictures/` versus `assets/pictures/classic/`)
and in some console diagnostics appended to the second variant.  The shared
logic is:

```js
const CARD_VALUES = ['A','2','3','4','5','6','7','8','9','10','J','Q','K'];
const CARD_SUITS = { 'hearts':'H', 'diamonds':'D', 'clubs':'C', 'spades':'S' };

function newGame() {
  const deck = CARD_VALUES.flatMap(value =>
    Object.entries(CARD_SUITS).map(([suitName, suitCode]) => ({
      value, suitCode, fileName: `${value}${suitCode}.png`
    }))
  ).sort(() => Math.random() - 0.5);

  deck.slice(0, 4).forEach((card, i) => {
    document.getElementById(`card${i+1}`).src = `<base>${card.fileName}`;
  });
}

window.onload = () => {
  document.getElementById('new-game-btn').addEventListener('click', newGame);
  newGame();
};
```

The comparator passed to `Array.prototype.sort` ignores its arguments and
returns `Math.random() - 0.5`, so the only information a comparison yields
is its sign.  We therefore model the random source as a stream
`rnd : Nat → Bool`, where `rnd n = true` means the `n`-th comparison
returned a non-positive number (keep the left element first) and
`rnd n = false` means it returned a positive number.  `Array.prototype.sort`
is a comparison sort that always outputs a rearrangement of its input (the
concrete order is engine-defined for an inconsistent comparator); we model
it as a merge sort whose comparison outcomes are drawn from the stream,
threading a counter for the number of comparisons consumed.

The document is modelled as an association of element ids to the current
value of their `src` attribute; `document.getElementById` on a missing id
yields `null`, and assigning a property of `null` throws, which the model
renders as `none`.
-/

/-- A card object as built on line 8 of `game.js`:
`{ value, suitCode, fileName }`. -/
structure Card where
  value : String
  suitCode : String
  fileName : String
deriving DecidableEq, Repr

/-- `CARD_VALUES` (line 2 of `game.js`). -/
def CARD_VALUES : List String :=
  ["A", "2", "3", "4", "5", "6", "7", "8", "9", "10", "J", "Q", "K"]

/-- `CARD_SUITS` (line 3 of `game.js`), as the list of `(suitName, suitCode)`
entries that `Object.entries` yields, in insertion order. -/
def CARD_SUITS : List (String × String) :=
  [("hearts", "H"), ("diamonds", "D"), ("clubs", "C"), ("spades", "S")]

/-- The card literal built by the inner arrow function on line 8:
`({ value, suitCode, fileName: ${value}${suitCode}.png })`. -/
def mkCard (value : String) (suitCode : String) : Card :=
  { value := value, suitCode := suitCode, fileName := value ++ suitCode ++ ".png" }

/-- The deck constructed on lines 6–9 of `game.js`:
`CARD_VALUES.flatMap(value => Object.entries(CARD_SUITS).map(...))`. -/
def buildDeck : List Card :=
  CARD_VALUES.flatMap fun value =>
    CARD_SUITS.map fun e => mkCard value e.2

/-- Split a list into two halves by alternation (an implementation detail of
the merge sort that models `Array.prototype.sort`). -/
def rsplit {α : Type} : List α → List α × List α
  | [] => ([], [])
  | a :: l =>
    let p := rsplit l
    (a :: p.2, p.1)

/-- Merge two runs, deciding each comparison by consuming the next value of
the random stream `rnd` (the comparator `() => Math.random() - 0.5` ignores
the elements, so a comparison is just a draw from the stream).  Returns the
merged list together with the updated comparison counter.  The first
argument is structural fuel; callers pass the combined length of the two
runs, which the recursion never exhausts, so the fuel-out branch is dead
code kept only to make the recursion structural. -/
def rmerge {α : Type} (rnd : Nat → Bool) :
    Nat → List α → List α → Nat → List α × Nat
  | 0, xs, ys, n => (xs ++ ys, n)
  | _ + 1, [], ys, n => (ys, n)
  | _ + 1, x :: xs, [], n => (x :: xs, n)
  | f + 1, x :: xs, y :: ys, n =>
    if rnd n then
      let p := rmerge rnd f xs (y :: ys) (n + 1)
      (x :: p.1, p.2)
    else
      let p := rmerge rnd f (x :: xs) ys (n + 1)
      (y :: p.1, p.2)

/-- Merge sort over the random stream, modelling
`.sort(() => Math.random() - 0.5)` on line 10 of `game.js`: every branching
decision of the sort is a draw from `rnd`.  The first argument is
structural fuel; callers pass the length of the list, which bounds the
recursion depth, so the fuel-out branch is never taken. -/
def msort {α : Type} (rnd : Nat → Bool) : Nat → List α → Nat → List α × Nat
  | 0, l, n => (l, n)
  | _ + 1, [], n => ([], n)
  | _ + 1, [a], n => ([a], n)
  | f + 1, a :: b :: l, n =>
    let p := rsplit (a :: b :: l)
    let q1 := msort rnd f p.1 n
    let q2 := msort rnd f p.2 q1.2
    rmerge rnd (q1.1.length + q2.1.length) q1.1 q2.1 q2.2

/-- The result of `deck.sort(() => Math.random() - 0.5)` for the random
stream `rnd`. -/
def jsSort {α : Type} (rnd : Nat → Bool) (l : List α) : List α :=
  (msort rnd l.length l 0).1

/-- The shuffled deck inside `newGame`, as a function of the random
stream. -/
def shuffledDeck (rnd : Nat → Bool) : List Card :=
  jsSort rnd buildDeck

/-- `deck.slice(0, 4)` on line 12 of `game.js`: the four cards selected and
displayed. -/
def selectedCards (rnd : Nat → Bool) : List Card :=
  (shuffledDeck rnd).take 4

/-- The asset-name derivation function named `deriveAssetName` in the spec:
`rank + suit + ".png"`.  (In the code this computation is inlined as the
template literal on line 8; it is stated separately here to compare the
code's inlined computation against the spec's function.) -/
def deriveAssetName (rank : String) (suit : String) : String :=
  rank ++ suit ++ ".png"

/-- The rank alternation of the spec's asset-name pattern
`^(A|[2-9]|10|J|Q|K)[HDCS]\.png$`, written out. -/
def patternRanks : List String :=
  ["A", "2", "3", "4", "5", "6", "7", "8", "9", "10", "J", "Q", "K"]

/-- The suit character class `[HDCS]` of the pattern. -/
def patternSuits : List String :=
  ["H", "D", "C", "S"]

/-- Decides whether a string matches `^(A|[2-9]|10|J|Q|K)[HDCS]\.png$`:
the language of this anchored pattern is exactly the finite set of strings
`rank ++ suit ++ ".png"` with `rank` drawn from the alternation and `suit`
from the character class. -/
def matchesAssetPattern (s : String) : Bool :=
  patternRanks.any fun r => patternSuits.any fun c => s == r ++ c ++ ".png"

/-- The asset base path of variant 1 (line 13 of the first copy of
`game.js`). -/
def basePath : String := "assets/pictures/"

/-- The asset base path of variant 2 (line 13 of the second copy of
`game.js`). -/
def basePathClassic : String := "assets/pictures/classic/"

/-- The display-slot assignments performed by the `forEach` on lines 12–14,
in execution order: index `i` writes element `card${i+1}` with
`base + card.fileName`. -/
def slotWrites (base : String) (rnd : Nat → Bool) : List (String × String) :=
  (selectedCards rnd).enum.map fun e =>
    ("card" ++ toString (e.1 + 1), base ++ e.2.fileName)

/-- The slot assignments of variant 1 of `newGame`
(`assets/pictures/${card.fileName}`). -/
def newGameWritesV1 (rnd : Nat → Bool) : List (String × String) :=
  (selectedCards rnd).enum.map fun e =>
    ("card" ++ toString (e.1 + 1), "assets/pictures/" ++ e.2.fileName)

/-- The slot assignments of variant 2 of `newGame`
(`assets/pictures/classic/${card.fileName}`). -/
def newGameWritesV2 (rnd : Nat → Bool) : List (String × String) :=
  (selectedCards rnd).enum.map fun e =>
    ("card" ++ toString (e.1 + 1), "assets/pictures/classic/" ++ e.2.fileName)

/-- A minimal document model: the association of element ids to the current
value of their `src` attribute. -/
abbrev Dom := List (String × String)

/-- `document.getElementById`: `some` of the element's current `src` when an
element with this id exists, `none` (JS `null`) otherwise. -/
def getElementById (dom : Dom) (i : String) : Option String :=
  dom.lookup i

/-- Assigning `.src` on the result of a `getElementById` call: succeeds only
when the element exists (assigning a property of `null` throws a
`TypeError`). -/
def setSrc (dom : Dom) (i : String) (v : String) : Option Dom :=
  if (dom.lookup i).isSome then
    some (dom.map fun p => if p.1 = i then (p.1, v) else p)
  else none

/-- Perform a sequence of `.src` assignments in order, stopping with `none`
at the first missing element. -/
def applyWrites : Dom → List (String × String) → Option Dom
  | dom, [] => some dom
  | dom, w :: ws =>
    match setSrc dom w.1 w.2 with
    | some d => applyWrites d ws
    | none => none

/-- One invocation of `newGame` (lines 5–15) as a state transformer on the
document: build the deck, shuffle it with the stream `rnd`, and assign the
first four cards' asset paths to the slots `card1`..`card4`. -/
def newGame (base : String) (rnd : Nat → Bool) (dom : Dom) : Option Dom :=
  applyWrites dom (slotWrites base rnd)

/-- `window.onload` (lines 17–20): look up the new-game button, register the
click listener (a `TypeError` if the button is `null`), then run `newGame`
once. -/
def onload (base : String) (rnd : Nat → Bool) (dom : Dom) : Option Dom :=
  match getElementById dom "new-game-btn" with
  | some _ => newGame base rnd dom
  | none => none

/-- Modelled from the spec: the document on which the script runs.  The HTML
page itself is not under `src/`; section 6 of the spec names four display
slots and a new-round trigger, which the script addresses by the ids
`card1`..`card4` and `new-game-btn`, so the initial document carries those
five elements (each with an initially empty `src`). -/
def pageDom : Dom :=
  [("card1", ""), ("card2", ""), ("card3", ""), ("card4", ""),
   ("new-game-btn", "")]

/-- The `(rank, suitCode)` pair of a card. -/
def pairOf (c : Card) : String × String := (c.value, c.suitCode)

/-- The value of the last write to id `j` in a list of `(id, value)` write
events, when one exists. -/
def finalWrite (j : String) : List (String × String) → Option String
  | [] => none
  | w :: ws =>
    match finalWrite j ws with
    | some v => some v
    | none => if w.1 == j then some w.2 else none

theorem rsplit_perm {α : Type} :
    ∀ l : List α, List.Perm ((rsplit l).1 ++ (rsplit l).2) l := by
  intro l
  induction l with
  | nil => simp [rsplit]
  | cons a l ih =>
    simp only [rsplit, List.cons_append]
    exact ((List.perm_append_comm.trans ih).cons a)

theorem rmerge_perm {α : Type} (rnd : Nat → Bool) :
    ∀ (f : Nat) (xs ys : List α) (n : Nat),
      List.Perm (rmerge rnd f xs ys n).1 (xs ++ ys) := by
  intro f
  induction f with
  | zero => intro xs ys n; simp [rmerge]
  | succ f ih =>
    intro xs ys n
    match xs, ys with
    | [], ys => simp [rmerge]
    | x :: xs, [] => simp [rmerge]
    | x :: xs, y :: ys =>
      simp only [rmerge]
      by_cases h : rnd n
      · simp only [h, if_true]
        exact (ih xs (y :: ys) (n + 1)).cons x
      · simp only [h, if_false]
        refine ((ih (x :: xs) ys (n + 1)).cons y).trans ?_
        exact List.perm_middle.symm.trans (List.Perm.refl _)

theorem msort_perm {α : Type} (rnd : Nat → Bool) :
    ∀ (f : Nat) (l : List α) (n : Nat), List.Perm (msort rnd f l n).1 l := by
  intro f
  induction f with
  | zero => intro l n; simp [msort]
  | succ f ih =>
    intro l n
    match l with
    | [] => simp [msort]
    | [a] => simp [msort]
    | a :: b :: l =>
      simp only [msort]
      refine (rmerge_perm rnd _ _ _ _).trans ?_
      exact ((ih _ n).append (ih _ _)).trans (rsplit_perm (a :: b :: l))

theorem jsSort_perm {α : Type} (rnd : Nat → Bool) (l : List α) :
    List.Perm (jsSort rnd l) l :=
  msort_perm rnd l.length l 0

theorem buildDeck_length : buildDeck.length = 52 := by decide

theorem buildDeck_pattern :
    ∀ c ∈ buildDeck, matchesAssetPattern c.fileName = true := by decide

theorem shuffledDeck_perm (rnd : Nat → Bool) :
    List.Perm (shuffledDeck rnd) buildDeck :=
  jsSort_perm rnd buildDeck

theorem shuffledDeck_length (rnd : Nat → Bool) :
    (shuffledDeck rnd).length = 52 :=
  (shuffledDeck_perm rnd).length_eq.trans buildDeck_length

theorem selectedCards_length (rnd : Nat → Bool) :
    (selectedCards rnd).length = 4 := by
  have h := shuffledDeck_length rnd
  simp [selectedCards, h]

theorem selectedCards_four (rnd : Nat → Bool) :
    ∃ c0 c1 c2 c3, selectedCards rnd = [c0, c1, c2, c3] := by
  have h := selectedCards_length rnd
  rcases hl : selectedCards rnd with _ | ⟨a, _ | ⟨b, _ | ⟨c, _ | ⟨d, _ | ⟨e, t⟩⟩⟩⟩⟩ <;>
    rw [hl] at h <;> simp at h
  exact ⟨a, b, c, d, rfl⟩

theorem mem_buildDeck_of_mem_selected {rnd : Nat → Bool} {c : Card}
    (h : c ∈ selectedCards rnd) : c ∈ buildDeck :=
  (shuffledDeck_perm rnd).mem_iff.mp ((List.take_sublist 4 _).mem h)

theorem lookup_map_set (dom : Dom) (i v j : String) :
    (List.map (fun p => if p.1 = i then (p.1, v) else p) dom).lookup j =
      if j = i then ((dom.lookup i).map fun _ => v) else dom.lookup j := by
  induction dom with
  | nil => by_cases h : j = i <;> simp [h]
  | cons head rest ih =>
    obtain ⟨k, w⟩ := head
    simp only [List.map_cons]
    by_cases hki : k = i
    · subst hki
      by_cases hjk : j = k
      · subst hjk
        simp [List.lookup_cons]
      · simp [List.lookup_cons, hjk, ih, beq_false_of_ne hjk]
    · by_cases hjk : j = k
      · subst hjk
        simp [List.lookup_cons, hki, fun h => hki (Eq.symm h), ih]
      · simp [List.lookup_cons, hki, hjk, ih, beq_false_of_ne hjk,
          beq_false_of_ne (Ne.symm hki)]

theorem setSrc_lookup {dom d : Dom} {i v : String}
    (h : setSrc dom i v = some d) (j : String) :
    d.lookup j = if j = i then some v else dom.lookup j := by
  unfold setSrc at h
  by_cases hs : (dom.lookup i).isSome = true
  · rw [if_pos hs] at h
    obtain rfl : _ = d := Option.some.inj h
    rw [lookup_map_set]
    by_cases hj : j = i
    · obtain ⟨u, hu⟩ := Option.isSome_iff_exists.mp hs
      simp [hj, hu]
    · simp [hj]
  · rw [if_neg hs] at h
    exact absurd h (by simp)

theorem setSrc_isSome_of_lookup {dom : Dom} {i v : String}
    (h : (dom.lookup i).isSome = true) : (setSrc dom i v).isSome = true := by
  simp [setSrc, h]

theorem applyWrites_isSome :
    ∀ (ws : List (String × String)) (dom : Dom),
      (∀ w ∈ ws, (dom.lookup w.1).isSome = true) →
      (applyWrites dom ws).isSome = true := by
  intro ws
  induction ws with
  | nil => intro dom _; simp [applyWrites]
  | cons w ws ih =>
    intro dom hall
    have hw : (dom.lookup w.1).isSome = true := hall w (by simp)
    obtain ⟨dm, hdm⟩ := Option.isSome_iff_exists.mp (setSrc_isSome_of_lookup (v := w.2) hw)
    simp only [applyWrites, hdm]
    refine ih dm fun u hu => ?_
    rw [setSrc_lookup hdm u.1]
    by_cases h1 : u.1 = w.1
    · simp [h1]
    · simp only [h1, if_false]
      exact hall u (List.mem_cons_of_mem _ hu)

theorem applyWrites_some_lookup :
    ∀ (ws : List (String × String)) (dom d : Dom),
      applyWrites dom ws = some d → ∀ j : String,
        d.lookup j = (finalWrite j ws).elim (dom.lookup j) some := by
  intro ws
  induction ws with
  | nil =>
    intro dom d h j
    obtain rfl : dom = d := Option.some.inj h
    simp [finalWrite]
  | cons w ws ih =>
    intro dom d h j
    rcases hs : setSrc dom w.1 w.2 with _ | dm
    · rw [applyWrites, hs] at h
      exact absurd h (by simp)
    · rw [applyWrites, hs] at h
      have hd := ih dm d h j
      rcases hf : finalWrite j ws with _ | v
      · rw [hf] at hd
        simp only [Option.elim] at hd
        rw [hd, setSrc_lookup hs j]
        by_cases hjw : j = w.1
        · subst hjw
          simp [finalWrite, hf, Option.elim]
        · simp [finalWrite, hf, beq_false_of_ne (fun h => hjw h.symm), hjw, Option.elim]
      · rw [hf] at hd
        simp only [Option.elim] at hd
        simp [finalWrite, hf, hd, Option.elim]

theorem slotWrites_eq (base : String) (rnd : Nat → Bool) :
    ∃ c0 c1 c2 c3 : Card, selectedCards rnd = [c0, c1, c2, c3] ∧
      slotWrites base rnd =
        [("card1", base ++ c0.fileName), ("card2", base ++ c1.fileName),
         ("card3", base ++ c2.fileName), ("card4", base ++ c3.fileName)] := by
  obtain ⟨c0, c1, c2, c3, h⟩ := selectedCards_four rnd
  refine ⟨c0, c1, c2, c3, h, ?_⟩
  rw [slotWrites, h]
  have h1 : "card" ++ toString (0 + 1) = "card1" := by decide
  have h2 : "card" ++ toString (1 + 1) = "card2" := by decide
  have h3 : "card" ++ toString (2 + 1) = "card3" := by decide
  have h4 : "card" ++ toString (3 + 1) = "card4" := by decide
  simp only [List.enum, List.enumFrom, List.map, h1, h2, h3, h4]

/-- C1: for every random stream, one invocation of `newGame` selects exactly
4 cards, displays exactly 4 cards (one slot write per selected card), and
the `(rank, suitCode)` pairs of the selected cards are pairwise distinct. -/
theorem newGame_selects_four_distinct (base : String) (rnd : Nat → Bool) :
    (selectedCards rnd).length = 4 ∧
    (slotWrites base rnd).length = 4 ∧
    (List.map pairOf (selectedCards rnd)).Nodup := by
  refine ⟨selectedCards_length rnd, ?_, ?_⟩
  · simp [slotWrites, selectedCards_length rnd]
  · have hp : List.Perm (List.map pairOf (shuffledDeck rnd)) (List.map pairOf buildDeck) := by
      exact List.Perm.map pairOf (shuffledDeck_perm rnd)
    have hall : (List.map pairOf (shuffledDeck rnd)).Nodup :=
      hp.nodup_iff.mpr (by decide)
    have hsub : (List.map pairOf (selectedCards rnd)).Sublist
        (List.map pairOf (shuffledDeck rnd)) := by
      exact (List.take_sublist 4 (shuffledDeck rnd)).map pairOf
    exact hall.sublist hsub

/-- C2: the deck constructed at the start of every `newGame` invocation has
exactly 52 cards, covering every pair of the 13 ranks `A,2,...,10,J,Q,K`
with the 4 suit codes `H,D,C,S` exactly once, with no duplicates and
nothing outside the cross product. -/
theorem buildDeck_is_full_crossProduct :
    buildDeck.length = 52 ∧
    (∀ v ∈ ["A", "2", "3", "4", "5", "6", "7", "8", "9", "10", "J", "Q", "K"],
      ∀ s ∈ ["H", "D", "C", "S"],
        ((List.map pairOf buildDeck).count (v, s)) = 1) ∧
    (List.map pairOf buildDeck).Nodup ∧
    (∀ c ∈ buildDeck,
      c.value ∈ ["A", "2", "3", "4", "5", "6", "7", "8", "9", "10", "J", "Q", "K"] ∧
      c.suitCode ∈ ["H", "D", "C", "S"]) := by
  refine ⟨by decide, by decide, by decide, by decide⟩

/-- Closed instance of `buildDeck_is_full_crossProduct`: the ace of hearts
occurs exactly once in the constructed deck. -/
theorem buildDeck_is_full_crossProduct_witness :
    ((List.map pairOf buildDeck).count ("A", "H")) = 1 :=
  buildDeck_is_full_crossProduct.2.1 "A" (by decide) "H" (by decide)

/-- C3: for every random stream, the shuffle step produces a rearrangement
of the 52-card deck: the shuffled sequence is a permutation of the
constructed deck, hence the same multiset of cards. -/
theorem shuffle_is_permutation (rnd : Nat → Bool) :
    List.Perm (shuffledDeck rnd) buildDeck ∧
    (shuffledDeck rnd : Multiset Card) = (buildDeck : Multiset Card) :=
  ⟨shuffledDeck_perm rnd, Multiset.coe_eq_coe.mpr (shuffledDeck_perm rnd)⟩

/-- C4: asset-name derivation is a pure deterministic function of
`(rank, suitCode)`: for every rank in `CARD_VALUES` and every entry of
`CARD_SUITS`, the file name the code computes equals
`rank ++ suitCode ++ ".png"` (the spec's `deriveAssetName`); in particular
rank `A` with suit `H` yields `"AH.png"`. -/
theorem asset_name_derivation :
    (∀ v ∈ CARD_VALUES, ∀ e ∈ CARD_SUITS,
      (mkCard v e.2).fileName = deriveAssetName v e.2 ∧
      deriveAssetName v e.2 = v ++ e.2 ++ ".png") ∧
    deriveAssetName "A" "H" = "AH.png" :=
  ⟨fun v _ e _ => ⟨rfl, rfl⟩, by decide⟩

/-- Closed instance of `asset_name_derivation` at rank `A`, suit entry
`(hearts, H)`. -/
theorem asset_name_derivation_witness :
    (mkCard "A" "H").fileName = deriveAssetName "A" "H" ∧
    deriveAssetName "A" "H" = "A" ++ "H" ++ ".png" :=
  asset_name_derivation.1 "A" (by decide) ("hearts", "H") (by decide)

/-- C5: for every random stream, each of the 4 selected cards has a file
name matching the anchored pattern of rank alternation, suit class and
`.png` extension. -/
theorem selected_asset_names_wellFormed (rnd : Nat → Bool) :
    ∀ c ∈ selectedCards rnd, matchesAssetPattern c.fileName = true :=
  fun _ hc => buildDeck_pattern _ (mem_buildDeck_of_mem_selected hc)

/-- Closed instance of `selected_asset_names_wellFormed`: on the all-true
stream the ace of hearts is among the selected cards and its file name
matches the pattern. -/
theorem selected_asset_names_wellFormed_witness :
    matchesAssetPattern (mkCard "A" "H").fileName = true :=
  selected_asset_names_wellFormed (fun _ => true) (mkCard "A" "H") (by decide)

/-- C7: the deck-build-and-select operation cannot fail.  On the document
the spec describes (four display slots and the new-game button present),
for every random stream, `newGame` completes for both base-path variants
and the `window.onload` handler (button lookup plus the initial `newGame`)
completes as well. -/
theorem newGame_cannot_fail (rnd : Nat → Bool) :
    (newGame basePath rnd pageDom).isSome = true ∧
    (newGame basePathClassic rnd pageDom).isSome = true ∧
    (onload basePath rnd pageDom).isSome = true ∧
    (onload basePathClassic rnd pageDom).isSome = true := by
  have hng : ∀ base : String, (newGame base rnd pageDom).isSome = true := by
    intro base
    obtain ⟨c0, c1, c2, c3, hsel, hsw⟩ := slotWrites_eq base rnd
    rw [newGame, hsw]
    refine applyWrites_isSome _ _ fun w hw => ?_
    simp only [List.mem_cons, List.not_mem_nil, or_false] at hw
    rcases hw with rfl | rfl | rfl | rfl
    · show (List.lookup "card1" pageDom).isSome = true
      decide
    · show (List.lookup "card2" pageDom).isSome = true
      decide
    · show (List.lookup "card3" pageDom).isSome = true
      decide
    · show (List.lookup "card4" pageDom).isSome = true
      decide
  have hbtn : getElementById pageDom "new-game-btn" = some "" := by decide
  refine ⟨hng _, hng _, ?_, ?_⟩ <;> simp only [onload, hbtn] <;> exact hng _

/-- C8: `newGame` is pure with respect to game state.  Whenever it
completes, every element other than the four display slots keeps its
previous `src`, and two invocations fed the same random stream write the
same values: each id either holds the same `src` after both runs or was
left untouched by both. -/
theorem newGame_pure_frame (base : String) (rnd : Nat → Bool) (dom dom2 : Dom) (j : String) :
    ((newGame base rnd dom).elim True fun d =>
      j ∈ ["card1", "card2", "card3", "card4"] ∨ d.lookup j = dom.lookup j) ∧
    ((newGame base rnd dom).elim True fun d =>
      (newGame base rnd dom2).elim True fun e =>
        d.lookup j = e.lookup j ∨
          (d.lookup j = dom.lookup j ∧ e.lookup j = dom2.lookup j)) := by
  obtain ⟨c0, c1, c2, c3, hsel, hsw⟩ := slotWrites_eq base rnd
  have hnone : ∀ hj1 : j ≠ "card1", ∀ hj2 : j ≠ "card2", ∀ hj3 : j ≠ "card3",
      ∀ hj4 : j ≠ "card4", finalWrite j (slotWrites base rnd) = none := by
    intro hj1 hj2 hj3 hj4
    rw [hsw]
    simp [finalWrite, beq_false_of_ne (Ne.symm hj1), beq_false_of_ne (Ne.symm hj2),
      beq_false_of_ne (Ne.symm hj3), beq_false_of_ne (Ne.symm hj4)]
  constructor
  · cases hd : newGame base rnd dom with
    | none => simp
    | some d =>
      by_cases hm : j ∈ ["card1", "card2", "card3", "card4"]
      · simp [hm]
      · simp only [List.mem_cons, List.not_mem_nil, or_false, not_or] at hm
        obtain ⟨hj1, hj2, hj3, hj4⟩ := hm
        have hl := applyWrites_some_lookup _ _ _ hd j
        rw [hnone hj1 hj2 hj3 hj4] at hl
        simp only [Option.elim] at hl
        simp [hl]
  · cases hd : newGame base rnd dom with
    | none => simp
    | some d =>
      cases he : newGame base rnd dom2 with
      | none => simp
      | some e =>
        have hld := applyWrites_some_lookup _ _ _ hd j
        have hle := applyWrites_some_lookup _ _ _ he j
        simp only [Option.elim]
        cases hf : finalWrite j (slotWrites base rnd) with
        | none =>
          rw [hf] at hld hle
          simp only [Option.elim] at hld hle
          exact Or.inr ⟨hld, hle⟩
        | some v =>
          rw [hf] at hld hle
          simp only [Option.elim] at hld hle
          exact Or.inl (hld.trans hle.symm)

/-- C9: the two source variants share their deck construction, shuffle and
4-card selection (both write lists are instances of the same `slotWrites`
at their own base path), so for identical random streams they select the
same four cards and their assigned paths differ only in the base-directory
prefix. -/
theorem variants_equivalent (rnd : Nat → Bool) :
    newGameWritesV1 rnd = slotWrites basePath rnd ∧
    newGameWritesV2 rnd = slotWrites basePathClassic rnd ∧
    ∃ c0 c1 c2 c3 : Card, selectedCards rnd = [c0, c1, c2, c3] ∧
      newGameWritesV1 rnd =
        [("card1", basePath ++ c0.fileName), ("card2", basePath ++ c1.fileName),
         ("card3", basePath ++ c2.fileName), ("card4", basePath ++ c3.fileName)] ∧
      newGameWritesV2 rnd =
        [("card1", basePathClassic ++ c0.fileName),
         ("card2", basePathClassic ++ c1.fileName),
         ("card3", basePathClassic ++ c2.fileName),
         ("card4", basePathClassic ++ c3.fileName)] := by
  refine ⟨rfl, rfl, ?_⟩
  obtain ⟨c0, c1, c2, c3, h⟩ := selectedCards_four rnd
  have h1 : "card" ++ toString (0 + 1) = "card1" := by decide
  have h2 : "card" ++ toString (1 + 1) = "card2" := by decide
  have h3 : "card" ++ toString (2 + 1) = "card3" := by decide
  have h4 : "card" ++ toString (3 + 1) = "card4" := by decide
  refine ⟨c0, c1, c2, c3, h, ?_, ?_⟩
  · rw [newGameWritesV1, h]
    simp only [List.enum, List.enumFrom, List.map, h1, h2, h3, h4, basePath]
  · rw [newGameWritesV2, h]
    simp only [List.enum, List.enumFrom, List.map, h1, h2, h3, h4, basePathClassic]

/-- C10: the display slots receive the selected cards in shuffle order: the
write list assigns slot `card(i+1)` the path `base ++ fileName` of the
`(i+1)`-th card of the shuffled deck, slots `card1`..`card4` in increasing
order and nothing else; on the spec's document the resulting state updates
exactly those four `src` attributes. -/
theorem newGame_assigns_in_order (base : String) (rnd : Nat → Bool) :
    ∃ c0 c1 c2 c3 : Card, (shuffledDeck rnd).take 4 = [c0, c1, c2, c3] ∧
      slotWrites base rnd =
        [("card1", base ++ c0.fileName), ("card2", base ++ c1.fileName),
         ("card3", base ++ c2.fileName), ("card4", base ++ c3.fileName)] ∧
      newGame base rnd pageDom = some
        [("card1", base ++ c0.fileName), ("card2", base ++ c1.fileName),
         ("card3", base ++ c2.fileName), ("card4", base ++ c3.fileName),
         ("new-game-btn", "")] := by
  obtain ⟨c0, c1, c2, c3, hsel, hsw⟩ := slotWrites_eq base rnd
  refine ⟨c0, c1, c2, c3, hsel, hsw, ?_⟩
  rw [newGame, hsw]
  simp [applyWrites, setSrc, pageDom, List.lookup_cons]
